import Mathlib

/-!
# pr-agent: the webhook relay script and the editor-extension stub

The repository holds two JavaScript files:

* `src/smeeio.js` builds a `smee-client` object from a literal options object and starts it;
* `src/.vscode/main.js` declares the hooks `activate` and `deactivate` and exports them.

Both files are straight-line code whose only observable behaviour is the sequence of calls
they make into objects they do not define (the `smee-client` package, the `window` object of
the editor).  They are embedded as programs of a small state-and-exception monad `JS`: the
state records the module-level bindings, `module.exports` and the trace of external effects;
each external call is recorded and answered by a fresh opaque reference.  What the external
objects do internally is not part of the repository and is not modelled.
-/

namespace PrAgent

/-! ## Values -/

/-- Functions declared in the source files of the repository. -/
inductive FnId
  | activate
  | deactivate
  deriving DecidableEq, Repr

/-- JavaScript values, as far as the two scripts can observe them. -/
inductive Value
  | undefined
  | str (s : String)
  | ref (id : Nat)
  | host (name : String)
  | fn (f : FnId)
  | obj (fields : List (String × Value))
  | arr (items : List Value)
  deriving Repr

mutual
/-- Structural equality test on values. -/
def Value.beq : Value → Value → Bool
  | .undefined, .undefined => true
  | .str a, .str b => a == b
  | .ref a, .ref b => a == b
  | .host a, .host b => a == b
  | .fn a, .fn b => a == b
  | .obj a, .obj b => Value.beqFields a b
  | .arr a, .arr b => Value.beqList a b
  | _, _ => false
/-- Structural equality test on lists of values. -/
def Value.beqList : List Value → List Value → Bool
  | [], [] => true
  | a :: as, b :: bs => Value.beq a b && Value.beqList as bs
  | _, _ => false
/-- Structural equality test on the field lists of object literals. -/
def Value.beqFields : List (String × Value) → List (String × Value) → Bool
  | [], [] => true
  | (k, a) :: as, (l, b) :: bs => k == l && Value.beq a b && Value.beqFields as bs
  | _, _ => false
end

mutual
theorem Value.beq_iff : ∀ a b : Value, Value.beq a b = true ↔ a = b
  | .undefined, b => by cases b <;> simp [Value.beq]
  | .str a, b => by cases b <;> simp [Value.beq]
  | .ref a, b => by cases b <;> simp [Value.beq]
  | .host a, b => by cases b <;> simp [Value.beq]
  | .fn a, b => by cases b <;> simp [Value.beq]
  | .obj a, b => by cases b <;> simp [Value.beq, Value.beqFields_iff a]
  | .arr a, b => by cases b <;> simp [Value.beq, Value.beqList_iff a]
theorem Value.beqList_iff : ∀ a b : List Value, Value.beqList a b = true ↔ a = b
  | [], b => by cases b <;> simp [Value.beqList]
  | a :: as, b => by
    cases b <;> simp [Value.beqList, Value.beq_iff a, Value.beqList_iff as]
theorem Value.beqFields_iff :
    ∀ a b : List (String × Value), Value.beqFields a b = true ↔ a = b
  | [], b => by cases b <;> simp [Value.beqFields]
  | (k, a) :: as, b => by
    cases b with
    | nil => simp [Value.beqFields]
    | cons x xs =>
      obtain ⟨l, c⟩ := x
      simp [Value.beqFields, Value.beq_iff a, Value.beqFields_iff as, and_assoc]
end

instance : DecidableEq Value := fun a b =>
  decidable_of_iff (Value.beq a b = true) (Value.beq_iff a b)

/-- Value bound to `key` in a field list; the last binding wins, as in an object literal. -/
def lookupField (key : String) : List (String × Value) → Option Value
  | [] => none
  | (k, v) :: rest =>
    match lookupField key rest with
    | some w => some w
    | none => if k = key then some v else none

/-- Own property names of a value: the keys of an object literal, nothing otherwise. -/
def Value.keys : Value → List String
  | .obj fields => fields.map Prod.fst
  | _ => []

/-- Property read `v.key`; a property that is absent reads as `undefined`. -/
def Value.get (v : Value) (key : String) : Value :=
  match v with
  | .obj fields => (lookupField key fields).getD .undefined
  | _ => .undefined

/-! ## Host, effects and the execution monad -/

/-- What a process is started with: its environment variables and its argument list. -/
structure Host where
  env : List (String × String)
  argv : List String
  deriving DecidableEq, Repr

/-- Global object of the host.  `console` and `process` are the Node.js globals used or
usable by `smeeio.js`; `window` is the global that the script-extension API named in the
first lines of `main.js` provides.  `process` is the only global through which the
environment and the argument list can be read. -/
def Host.global (h : Host) (name : String) : Option Value :=
  if name = "console" then some (.host "console")
  else if name = "window" then some (.host "window")
  else if name = "process" then
    some (.obj [("env", .obj (h.env.map fun kv => (kv.1, .str kv.2))),
                ("argv", .arr (h.argv.map .str))])
  else none

/-- External effects: calls into objects that the repository does not define.  Each effect
carries the value the call returned. -/
inductive Effect
  | require (name : String) (result : Value)
  | construct (ctor : Value) (args : List Value) (result : Value)
  | call (recv : Value) (method : String) (args : List Value) (result : Value)
  deriving DecidableEq, Repr

/-- State of one module while it runs. -/
structure World where
  host : Host
  scope : List (String × Value)
  moduleExports : Value
  trace : List Effect
  next : Nat
  deriving DecidableEq, Repr

/-- State of a module before its first statement: no binding, `module.exports` is `{}`. -/
def World.init (h : Host) : World :=
  { host := h, scope := [], moduleExports := .obj [], trace := [], next := 0 }

/-- Programs: a state over `World`, with JavaScript exceptions as error results. -/
abbrev JS := StateT World (Except String)

/-- Allocate the opaque reference that stands for the result of an external call. -/
def fresh : JS Value :=
  modifyGet fun w => (.ref w.next, { w with next := w.next + 1 })

/-- Append an effect to the trace. -/
def emit (e : Effect) : JS Unit :=
  modify fun w => { w with trace := w.trace ++ [e] }

/-- Bind a module-level name (`const x = v`, or a function declaration). -/
def declare (name : String) (v : Value) : JS Unit :=
  modify fun w => { w with scope := w.scope ++ [(name, v)] }

/-- Resolve an identifier: the module-level bindings first, then the global object; an
identifier bound in neither is a `ReferenceError`. -/
def lookup (name : String) : JS Value := do
  let w ← get
  match lookupField name w.scope with
  | some v => pure v
  | none =>
    match w.host.global name with
    | some v => pure v
    | none => throw ("ReferenceError: " ++ name ++ " is not defined")

/-- Assignment `module.exports = v`. -/
def setExports (v : Value) : JS Unit :=
  modify fun w => { w with moduleExports := v }

/-- External call `require(name)`. -/
def requireModule (name : String) : JS Value := do
  let r ← fresh
  emit (.require name r)
  pure r

/-- External call `new ctor(...args)`. -/
def construct (ctor : Value) (args : List Value) : JS Value := do
  if ctor = .undefined then throw "TypeError: undefined is not a constructor"
  let r ← fresh
  emit (.construct ctor args r)
  pure r

/-- External call `recv.method(...args)`. -/
def callMethod (recv : Value) (method : String) (args : List Value) : JS Value := do
  if recv = .undefined then
    throw ("TypeError: cannot read properties of undefined (reading " ++ method ++ ")")
  let r ← fresh
  emit (.call recv method args r)
  pure r

/-! ## `src/smeeio.js` -/

/-- Module body of `src/smeeio.js`. -/
def smeeioModule : JS Unit := do
  -- const SmeeClient = require('smee-client')
  let required ← requireModule "smee-client"
  declare "SmeeClient" required
  -- const smee = new SmeeClient({ source: ..., target: ..., logger: console })
  let ctor ← lookup "SmeeClient"
  let logger ← lookup "console"
  let client ← construct ctor
    [.obj [("source", .str "https://smee.io/VlexRkbYt8u4ZYYb"),
           ("target", .str "http://localhost:3010/api/v1/github_webhooks"),
           ("logger", logger)]]
  declare "smee" client
  -- const events = smee.start()
  let smee ← lookup "smee"
  let handle ← callMethod smee "start" []
  declare "events" handle
  -- // Stop forwarding events
  -- // events.close()

/-! ## `src/.vscode/main.js` -/

/-- Source function `activate(_context)`. -/
def activate (_context : Value) : JS Value := do
  -- window.showInformationMessage('Hello, World!');
  let window ← lookup "window"
  let _ ← callMethod window "showInformationMessage" [.str "Hello, World!"]
  pure .undefined

/-- Source function `deactivate()`, whose body is empty. -/
def deactivate : JS Value :=
  pure .undefined

/-- Call of a function declared in the repository; a parameter without an argument is
`undefined`, arguments without a parameter are ignored. -/
def callFn : FnId → List Value → JS Value
  | .activate, args => activate (args.headD .undefined)
  | .deactivate, _ => deactivate

/-- Call of a value: only function values can be called. -/
def Value.invoke (v : Value) (args : List Value) : JS Value :=
  match v with
  | .fn f => callFn f args
  | _ => throw "TypeError: value is not a function"

/-- Module body of `src/.vscode/main.js`; the two function declarations are hoisted. -/
def mainModule : JS Unit := do
  declare "activate" (.fn .activate)
  declare "deactivate" (.fn .deactivate)
  -- module.exports = { activate, deactivate }
  let a ← lookup "activate"
  let d ← lookup "deactivate"
  setExports (.obj [("activate", a), ("deactivate", d)])

/-- Call one function once for each argument list, in order. -/
def callEach (f : FnId) : List (List Value) → JS Unit
  | [] => pure ()
  | args :: rest => do
    let _ ← callFn f args
    callEach f rest

/-! ## Reading traces -/

/-- Run a program in a freshly started module. -/
def load (m : JS α) (h : Host) : Except String (α × World) :=
  m.run (World.init h)

/-- Trace of external effects of a run; a run that throws leaves no completed trace. -/
def traceOf (m : JS α) (h : Host) : Option (List Effect) :=
  match load m h with
  | .ok (_, w) => some w.trace
  | .error _ => none

/-- Arguments of every constructor call of a trace, in order. -/
def constructorCalls (t : List Effect) : List (List Value) :=
  t.filterMap fun e =>
    match e with
    | .construct _ args _ => some args
    | _ => none

/-- Whether an effect is a constructor call. -/
def Effect.isConstruct : Effect → Bool
  | .construct _ _ _ => true
  | _ => false

/-- Whether an effect is a call of the method `method`, on any receiver. -/
def Effect.isCallOf (method : String) : Effect → Bool
  | .call _ m _ _ => m == method
  | _ => false

/-- Whether an effect is a method call whose receiver is `recv`. -/
def Effect.isCallOn (recv : Value) : Effect → Bool
  | .call r _ _ _ => decide (r = recv)
  | _ => false

/-- The effect without the value it returned: what was called, on what, with what. -/
def Effect.forgetResult : Effect → Effect
  | .require name _ => .require name .undefined
  | .construct ctor args _ => .construct ctor args .undefined
  | .call recv method args _ => .call recv method args .undefined

/-- Options object that `smeeio.js` passes to the client constructor: the only argument of
the only constructor call of one load. -/
def clientOptions (h : Host) : Option Value :=
  match traceOf smeeioModule h with
  | some t =>
    match constructorCalls t with
    | [[opts]] => some opts
    | _ => none
  | none => none

/-- String held by the field `key` of the options object, if it is a string. -/
def configured (h : Host) (key : String) : Option String :=
  match clientOptions h with
  | some opts =>
    match opts.get key with
    | .str s => some s
    | _ => none
  | none => none

/-! ## URLs

`smeeio.js` hands its two URLs to the client as strings.  Their components are read off
with the generic syntax `scheme "://" host [ ":" port ] path [ "?" query ] [ "#" fragment ]`
of RFC 3986 (user information and bracketed IP literals are not accepted). -/

/-- Components of a URL. -/
structure Url where
  scheme : String
  host : String
  port : Option Nat
  path : String
  query : Option String
  fragment : Option String
  deriving DecidableEq, Repr

/-- Characters allowed in a scheme after its first letter. -/
def isSchemeChar (c : Char) : Bool :=
  c.isAlphanum || c == '+' || c == '-' || c == '.'

/-- Value of a string of decimal digits, most significant first. -/
def digitsValue (cs : List Char) : Nat :=
  cs.foldl (fun acc c => 10 * acc + (c.toNat - '0'.toNat)) 0

/-- Port after the host: absent, or a run of digits behind a colon (an empty run gives no
port). -/
def parsePort : List Char → Option (Option Nat)
  | [] => some none
  | ':' :: ds =>
    if ds.all Char.isDigit then some (if ds = [] then none else some (digitsValue ds))
    else none
  | _ => none

/-- Text behind a leading delimiter, when the input starts with it. -/
def afterDelimiter (d : Char) : List Char → Option String
  | [] => none
  | c :: cs => if c = d then some (String.mk cs) else none

/-- Split a URL into its components. -/
def parseUrl (s : String) : Option Url :=
  let cs := s.toList
  let scheme := cs.takeWhile (fun c => c != ':')
  match cs.dropWhile (fun c => c != ':') with
  | ':' :: '/' :: '/' :: rest =>
    let authority := rest.takeWhile (fun c => c != '/' && c != '?' && c != '#')
    let afterAuthority := rest.dropWhile (fun c => c != '/' && c != '?' && c != '#')
    let host := authority.takeWhile (fun c => c != ':')
    let path := afterAuthority.takeWhile (fun c => c != '?' && c != '#')
    let afterPath := afterAuthority.dropWhile (fun c => c != '?' && c != '#')
    let queryPart := afterPath.takeWhile (fun c => c != '#')
    let fragmentPart := afterPath.dropWhile (fun c => c != '#')
    if (scheme.head?.map Char.isAlpha).getD false ∧ scheme.all isSchemeChar
        ∧ host ≠ [] ∧ ¬ ('@' ∈ authority) ∧ ¬ ('[' ∈ authority) then
      match parsePort (authority.dropWhile (fun c => c != ':')) with
      | some port =>
        some { scheme := String.mk scheme, host := String.mk host, port := port,
               path := String.mk path, query := afterDelimiter '?' queryPart,
               fragment := afterDelimiter '#' fragmentPart }
      | none => none
    else none
  | _ => none

/-- Run a program in the extension module once `main.js` has been loaded. -/
def afterMain (m : JS α) : JS α := do
  mainModule
  m

/-- World in which the module-level names of `main.js` and `module.exports` hold arbitrary
values. -/
def mainWorld (h : Host) (a d e : Value) : World :=
  { World.init h with scope := [("activate", a), ("deactivate", d)], moduleExports := e }

/-! ## Shared facts about the two modules -/

/-- The three effects of one load of `smeeio.js`. -/
def smeeioEffects : List Effect :=
  [.require "smee-client" (.ref 0),
   .construct (.ref 0)
     [.obj [("source", .str "https://smee.io/VlexRkbYt8u4ZYYb"),
            ("target", .str "http://localhost:3010/api/v1/github_webhooks"),
            ("logger", .host "console")]]
     (.ref 1),
   .call (.ref 1) "start" [] (.ref 2)]

theorem smeeio_load (h : Host) :
    load smeeioModule h = .ok ((),
      { host := h,
        scope := [("SmeeClient", .ref 0), ("smee", .ref 1), ("events", .ref 2)],
        moduleExports := .obj [],
        trace := smeeioEffects,
        next := 3 }) := rfl

theorem smeeio_trace (h : Host) : traceOf smeeioModule h = some smeeioEffects := rfl

theorem main_load (h : Host) :
    load mainModule h = .ok ((),
      { host := h,
        scope := [("activate", .fn .activate), ("deactivate", .fn .deactivate)],
        moduleExports := .obj [("activate", .fn .activate), ("deactivate", .fn .deactivate)],
        trace := [],
        next := 0 }) := rfl

/-- The notification call made by `activate`, without its result. -/
def notification : Effect :=
  .call (.host "window") "showInformationMessage" [.str "Hello, World!"] .undefined

theorem activate_run (w : World) (ctx : Value) (hw : lookupField "window" w.scope = none) :
    (activate ctx).run w = .ok (.undefined,
      { w with
        trace := w.trace ++
          [.call (.host "window") "showInformationMessage" [.str "Hello, World!"] (.ref w.next)],
        next := w.next + 1 }) := by
  show (do let window ← lookup "window"
           let _ ← callMethod window "showInformationMessage" [.str "Hello, World!"]
           pure Value.undefined : JS Value).run w = _
  have hl : (lookup "window").run w = .ok (.host "window", w) := by
    show (match lookupField "window" w.scope with
          | some v => (pure v : JS Value)
          | none =>
            match w.host.global "window" with
            | some v => pure v
            | none => throw ("ReferenceError: " ++ "window" ++ " is not defined")).run w = _
    rw [hw]
    rfl
  simp only [StateT.run_bind, hl]
  rfl

theorem callEach_activate_run (calls : List (List Value)) :
    ∀ w : World, lookupField "window" w.scope = none →
      ∃ w2, (callEach .activate calls).run w = .ok ((), w2)
        ∧ w2.host = w.host ∧ w2.scope = w.scope ∧ w2.moduleExports = w.moduleExports
        ∧ w2.trace.map Effect.forgetResult
            = w.trace.map Effect.forgetResult ++ List.replicate calls.length notification := by
  induction calls with
  | nil =>
    intro w _
    exact ⟨w, rfl, rfl, rfl, rfl, by simp⟩
  | cons args rest ih =>
    intro w hw
    obtain ⟨w2, hrun, hhost, hscope, hexp, htrace⟩ :=
      ih { w with
           trace := w.trace ++
             [.call (.host "window") "showInformationMessage" [.str "Hello, World!"]
               (.ref w.next)],
           next := w.next + 1 } hw
    refine ⟨w2, ?_, hhost, hscope, hexp, ?_⟩
    · show (do let _ ← activate (args.headD .undefined)
               callEach .activate rest : JS Unit).run w = _
      simp only [StateT.run_bind, activate_run w _ hw]
      exact hrun
    · rw [htrace]
      simp [Effect.forgetResult, notification, List.replicate_succ]

/-! ## The relay script -/

/-- C1: one load of `smeeio.js` requires `smee-client`, constructs exactly one client from
what that returned, calls `start()` exactly once and on that client, and the options the
client was built from have `source = https://smee.io/VlexRkbYt8u4ZYYb`. -/
theorem relay_start_establishes_one_connection (h : Host) :
    ∃ (t : List Effect) (ctor opts client handle : Value),
      traceOf smeeioModule h = some t
      ∧ Effect.require "smee-client" ctor ∈ t
      ∧ t.filter Effect.isConstruct = [.construct ctor [opts] client]
      ∧ t.filter (Effect.isCallOf "start") = [.call client "start" [] handle]
      ∧ opts.get "source" = .str "https://smee.io/VlexRkbYt8u4ZYYb" :=
  ⟨smeeioEffects, Value.ref 0, _, Value.ref 1, Value.ref 2, smeeio_trace h, by decide,
    rfl, rfl, rfl⟩

/-- C5: the options object passed to the client constructor has exactly the fields `source`,
`target` and `logger`, holding the two literal URLs and the global `console`, and it is the
same object for any two hosts, whatever their environments and argument lists. -/
theorem relay_configuration_is_hardcoded (h1 h2 : Host) :
    clientOptions h1
        = some (.obj [("source", .str "https://smee.io/VlexRkbYt8u4ZYYb"),
                      ("target", .str "http://localhost:3010/api/v1/github_webhooks"),
                      ("logger", .host "console")])
      ∧ (clientOptions h1).map Value.keys = some ["source", "target", "logger"]
      ∧ h1.global "console" = some (.host "console")
      ∧ clientOptions h1 = clientOptions h2
      ∧ (traceOf smeeioModule h1).map constructorCalls
          = (traceOf smeeioModule h2).map constructorCalls :=
  ⟨rfl, rfl, rfl, rfl, rfl⟩

/-- C7: the configured target parses to scheme `http`, host `localhost`, port 3010 and path
`/api/v1/github_webhooks` (no query, no fragment), and it differs from the configured
source. -/
theorem relay_target_is_local_endpoint (h : Host) :
    ∃ s t,
      configured h "source" = some s
      ∧ configured h "target" = some t
      ∧ parseUrl t = some { scheme := "http", host := "localhost", port := some 3010,
                            path := "/api/v1/github_webhooks", query := none,
                            fragment := none }
      ∧ t ≠ s :=
  ⟨"https://smee.io/VlexRkbYt8u4ZYYb", "http://localhost:3010/api/v1/github_webhooks",
    rfl, rfl, by decide, by decide⟩

/-- C9: in the trace of one load of `smeeio.js` no `close()` call occurs on any receiver
and no method at all is called on the handle that `start()` returned, the construction of the client comes
before the `start()` call on it, and that `start()` call is the last effect. -/
theorem relay_load_never_stops (h : Host) :
    ∃ (t : List Effect) (ctor : Value) (args : List Value) (client handle : Value)
        (i j : Nat),
      traceOf smeeioModule h = some t
      ∧ t.all (fun e => !(e.isCallOf "close")) = true
      ∧ t.all (fun e => !(e.isCallOn handle)) = true
      ∧ i < j
      ∧ t[i]? = some (.construct ctor args client)
      ∧ t[j]? = some (.call client "start" [] handle)
      ∧ t.getLast? = some (.call client "start" [] handle) :=
  ⟨smeeioEffects, Value.ref 0, _, Value.ref 1, Value.ref 2, 1, 2, smeeio_trace h, by decide, by decide,
    by decide, rfl, rfl, rfl⟩

/-! ## The extension stub -/

/-- C6: whatever the context argument, `activate` (called in the loaded module) returns
`undefined` after exactly one effect, the call `window.showInformationMessage` with the
single argument `Hello, World!` on the global `window`; two contexts give the same trace. -/
theorem activate_shows_static_notification (h : Host) (ctx ctx2 : Value) :
    ∃ w : World,
      load (afterMain (activate ctx)) h = .ok (.undefined, w)
      ∧ w.trace
          = [.call (.host "window") "showInformationMessage" [.str "Hello, World!"] (.ref 0)]
      ∧ h.global "window" = some (.host "window")
      ∧ (w.trace.filter (Effect.isCallOf "showInformationMessage")).length = 1
      ∧ traceOf (afterMain (activate ctx)) h = traceOf (afterMain (activate ctx2)) h :=
  ⟨_, rfl, rfl, rfl, rfl, rfl⟩

/-- C8: calling `activate` once per argument list of `calls` in the loaded module succeeds,
leaves the module-level bindings and `module.exports` as the load left them, and its trace
is `calls.length` notification calls that agree in receiver, method and arguments (each
returns its own fresh value); the same holds when the module-level
names and `module.exports` hold any other values `a`, `d`, `e`; and `deactivate`, in any
world `w` and with any arguments, returns `undefined` and leaves the world as it was. -/
theorem extension_hooks_hold_no_state (h : Host) (calls : List (List Value))
    (a d e : Value) (w : World) (args : List Value) :
    (∃ w2 : World,
        load (afterMain (callEach .activate calls)) h = .ok ((), w2)
        ∧ w2.scope = [("activate", .fn .activate), ("deactivate", .fn .deactivate)]
        ∧ w2.moduleExports
            = .obj [("activate", .fn .activate), ("deactivate", .fn .deactivate)]
        ∧ w2.trace.map Effect.forgetResult = List.replicate calls.length notification)
      ∧ (∃ w3 : World,
          (callEach .activate calls).run (mainWorld h a d e) = .ok ((), w3)
          ∧ w3.scope = (mainWorld h a d e).scope
          ∧ w3.moduleExports = e
          ∧ w3.trace.map Effect.forgetResult = List.replicate calls.length notification)
      ∧ (callFn .deactivate args).run w = .ok (.undefined, w) := by
  refine ⟨?_, ?_, rfl⟩
  · obtain ⟨w2, hrun, _, hscope, hexp, htrace⟩ :=
      callEach_activate_run calls (mainWorld h (.fn .activate) (.fn .deactivate)
        (.obj [("activate", .fn .activate), ("deactivate", .fn .deactivate)])) rfl
    exact ⟨w2, hrun, hscope, hexp, by simpa [mainWorld, World.init] using htrace⟩
  · obtain ⟨w3, hrun, _, hscope, hexp, htrace⟩ :=
      callEach_activate_run calls (mainWorld h a d e) rfl
    exact ⟨w3, hrun, hscope, hexp, by simpa [mainWorld, World.init] using htrace⟩

/-- C10: after `main.js` is loaded, `module.exports` has exactly the two members `activate`
and `deactivate`, each holding the function of that name declared in the file: calling the
exported value runs the body of that function. -/
theorem module_exports_both_hooks (h : Host) (args : List Value) :
    ∃ w : World,
      load mainModule h = .ok ((), w)
      ∧ w.moduleExports.keys = ["activate", "deactivate"]
      ∧ w.moduleExports.get "activate" = .fn .activate
      ∧ w.moduleExports.get "deactivate" = .fn .deactivate
      ∧ (w.moduleExports.get "activate").invoke args = activate (args.headD .undefined)
      ∧ (w.moduleExports.get "deactivate").invoke args = deactivate :=
  ⟨_, main_load h, rfl, rfl, rfl, rfl, rfl⟩

end PrAgent
